import Mathlib

/-!
Shallow embedding of the command channel and terminal emulator of
`src/rp/src/term.c` (md-microfirmware-template).

Characters and bytes are modelled as `Nat` values (the target's `char` is
unsigned 8-bit).  The screen is the flat array `screen` of `term.c`, indexed
by `cursorY * X + cursorX`.  Calls into the display subsystem
(`display_termChar`, `display_termCursor`, `display_termRefresh`, the
physical scroll) and command-handler invocations are recorded in an event
trace, since those collaborators are external to the core.

The numeric screen parameters `TERM_SCREEN_SIZE_X`, `TERM_SCREEN_SIZE_Y`,
the escape-accumulator capacity `TERM_ESC_BUFFLINE_SIZE`, the input capacity
`TERM_INPUT_BUFFER_SIZE` and `MAX_PROTOCOL_PAYLOAD_SIZE` live in headers not
present under `src/`; they are taken as parameters `X Y B CAP MAXP`
throughout.  The VT52 coordinate bias `TERM_POS_X = TERM_POS_Y = 0x20` is
documented in `term.c` itself (comments around `term_init`).
-/

namespace Term

/-- Trace entries for calls out of the core: `dchar x y c` is
`display_termChar(x, y, c)`, `dcursor` is `display_termCursor`, `drefresh`
is `display_termRefresh`, `dscroll` is the physical scroll
(`termScrollupBuffer`), and `invoke i arg` is an invocation of the command
handler registered at index `i` with argument bytes `arg`. -/
inductive DispEvent where
  | dchar (x y c : Nat)
  | dcursor (x y : Nat)
  | drefresh
  | dscroll
  | invoke (i : Nat) (arg : List Nat)
deriving DecidableEq

/-- The mutable terminal state of `term.c`: the flat `screen` array, the
cursor, the shadow previous-cursor used to erase the block glyph, the line
editor buffer (`inputBuffer` together with `inputLength`, represented as a
single list), plus the event trace of external calls. -/
structure TermState where
  screen : List Nat
  cursorX : Nat
  cursorY : Nat
  prevCursorX : Nat
  prevCursorY : Nat
  inputBuffer : List Nat
  events : List DispEvent
deriving DecidableEq

/-- `termScrollUp` (term.c:264): drop the top row of the logical screen,
blank the new bottom row, and scroll the physical buffer. -/
def termScrollUp (X : Nat) (st : TermState) : TermState :=
  { st with
    screen := st.screen.drop X ++ List.replicate X 0,
    events := st.events ++ [.dscroll] }

/-- Moving to column 0 of the next row, scrolling past the last row — the
shared tail of the column-wrap in `termPutChar` (term.c:276-283) and the
newline handling in `termRenderChar` (term.c:291-298). -/
def termLineFeed (X Y : Nat) (st : TermState) : TermState :=
  if st.cursorY + 1 ≥ Y then
    { termScrollUp X st with cursorX := 0, cursorY := Y - 1 }
  else
    { st with cursorX := 0, cursorY := st.cursorY + 1 }

/-- Writing the character cell at the cursor (term.c:273-274): store it in
the logical screen and send it to the display. -/
def termWriteCell (X : Nat) (c : Nat) (st : TermState) : TermState :=
  { st with
    screen := st.screen.set (st.cursorY * X + st.cursorX) c,
    events := st.events ++ [.dchar st.cursorX st.cursorY c] }

/-- `termPutChar` (term.c:272): write at the cursor, advance with
wraparound at the last column and scroll past the last row. -/
def termPutChar (X Y : Nat) (c : Nat) (st : TermState) : TermState :=
  if st.cursorX + 1 ≥ X then termLineFeed X Y (termWriteCell X c st)
  else { termWriteCell X c st with cursorX := st.cursorX + 1 }

/-- Erasing the block-cursor glyph at the previous cursor position
(term.c:290). -/
def termEraseOldCursor (st : TermState) : TermState :=
  { st with events := st.events ++ [.dchar st.prevCursorX st.prevCursorY 32] }

/-- Drawing the block cursor at the current position and recording it as
the previous position (term.c:303-307). -/
def termDrawCursor (st : TermState) : TermState :=
  { st with
    events := st.events ++ [.dcursor st.cursorX st.cursorY],
    prevCursorX := st.cursorX,
    prevCursorY := st.cursorY }

/-- `termRenderChar` (term.c:288): erase the old block cursor, render the
character (newline/carriage-return move to column 0 of the next row with
scroll; NUL renders nothing), draw the block cursor, record the position. -/
def termRenderChar (X Y : Nat) (c : Nat) (st : TermState) : TermState :=
  termDrawCursor
    (if c = 10 ∨ c = 13 then termLineFeed X Y (termEraseOldCursor st)
     else if c ≠ 0 then termPutChar X Y c (termEraseOldCursor st)
     else termEraseOldCursor st)

/-- Clearing one cell inside the loops of the `E`, `J` and `K` escape
commands: zero it in the logical screen and blank it on the display. -/
def clearCellStep (X y : Nat) (s : TermState) (x : Nat) : TermState :=
  { s with
    screen := s.screen.set (y * X + x) 0,
    events := s.events ++ [.dchar x y 32] }

/-- The nested clearing loops of the `E`, `J` and `K` escape commands
(term.c:355, 369, 377): zero the listed cells of the logical screen and
blank them on the display, row-major. -/
def termClearCells (X : Nat) (ys xs : List Nat) (st : TermState) : TermState :=
  ys.foldl (fun s y => xs.foldl (clearCellStep X y) s) st

/-- The `ESC Y` body (term.c:382-392): subtract the bias `TERM_POS_Y` /
`TERM_POS_X` (0x20) from the two trailing bytes, move only when both
coordinates are in range, then redraw the block cursor either way. -/
def vt52Y (X Y : Nat) (seq : List Nat) (st : TermState) : TermState :=
  if 0 ≤ (seq.getD 2 0 : Int) - 32 ∧ (seq.getD 2 0 : Int) - 32 < (Y : Int) ∧
      0 ≤ (seq.getD 3 0 : Int) - 32 ∧ (seq.getD 3 0 : Int) - 32 < (X : Int) then
    termRenderChar X Y 0
      { st with
        cursorY := ((seq.getD 2 0 : Int) - 32).toNat,
        cursorX := ((seq.getD 3 0 : Int) - 32).toNat }
  else
    termRenderChar X Y 0 st

/-- `vt52ProcessSequence` (term.c:320): interpret a complete VT52 escape
sequence.  Cursor moves clamp at the edges; `E`/`H` home the cursor (`E`
also clears); `J` clears from the cursor column to the end of each
remaining row; `K` clears to the end of the line; `Y` is direct addressing
with bias 0x20, ignoring out-of-range coordinates; anything else is
ignored. -/
def vt52ProcessSequence (X Y : Nat) (seq : List Nat) (st : TermState) : TermState :=
  if seq.length < 2 then st
  else
    match seq.getD 1 0 with
    | 65 =>
      termRenderChar X Y 0
        (if st.cursorY > 0 then { st with cursorY := st.cursorY - 1 } else st)
    | 66 =>
      termRenderChar X Y 0
        (if st.cursorY < Y - 1 then { st with cursorY := st.cursorY + 1 } else st)
    | 67 =>
      termRenderChar X Y 0
        (if st.cursorX < X - 1 then { st with cursorX := st.cursorX + 1 } else st)
    | 68 =>
      termRenderChar X Y 0
        (if st.cursorX > 0 then { st with cursorX := st.cursorX - 1 } else st)
    | 69 =>
      termClearCells X (List.range Y) (List.range X)
        (termRenderChar X Y 0 { st with cursorX := 0, cursorY := 0 })
    | 72 => termRenderChar X Y 0 { st with cursorX := 0, cursorY := 0 }
    | 74 =>
      termClearCells X (List.range' st.cursorY (Y - st.cursorY))
        (List.range' st.cursorX (X - st.cursorX)) st
    | 75 => termClearCells X [st.cursorY] (List.range' st.cursorX (X - st.cursorX)) st
    | 89 => if seq.length = 4 then vt52Y X Y seq st else st
    | _ => st

/-- The local escape state machine of `term_printString` (term.c:402-404):
`inEsc` is `state == STATE_ESC` and `escBuf` is `escBuffer[0..escLen)`. -/
structure PrintMachine where
  inEsc : Bool
  escBuf : List Nat
deriving DecidableEq

/-- Rendering an accumulated (aborted) escape buffer as literal text
(term.c:436-438 and 447-449). -/
def flushEsc (X Y : Nat) (esc : List Nat) (st : TermState) : TermState :=
  esc.foldl (fun s c => termRenderChar X Y c s) st

/-- The sequence-completion checks of the ESCAPE branch (term.c:418-433)
applied to the extended accumulator `buf`: a two-byte sequence other than
`ESC Y` completes, a four-byte `ESC Y` completes, anything else keeps
accumulating. -/
def printEscStep (X Y : Nat) (buf : List Nat) (st : TermState) :
    PrintMachine × TermState :=
  if buf.length = 2 then
    if buf.getD 1 0 = 89 then (⟨true, buf⟩, st)
    else (⟨false, buf⟩, vt52ProcessSequence X Y buf st)
  else if buf.getD 1 0 = 89 ∧ buf.length = 4 then
    (⟨false, buf⟩, vt52ProcessSequence X Y buf st)
  else (⟨true, buf⟩, st)

/-- One iteration of the `while (*str)` loop of `term_printString`
(term.c:406-443), with escape-accumulator capacity `B`
(`TERM_ESC_BUFFLINE_SIZE`): in NORMAL mode, ESC (0x1B) starts accumulating
and anything else renders; in ESCAPE mode the byte is appended and the
completion checks run, after which an accumulator that reached capacity is
flushed as literal text, returning to NORMAL mode. -/
def printStep (X Y B : Nat) (acc : PrintMachine × TermState) (c : Nat) :
    PrintMachine × TermState :=
  if acc.1.inEsc = false then
    if c = 27 then (⟨true, [27]⟩, acc.2)
    else (acc.1, termRenderChar X Y c acc.2)
  else if (acc.1.escBuf ++ [c]).length ≥ B then
    (⟨false, acc.1.escBuf ++ [c]⟩,
      flushEsc X Y (acc.1.escBuf ++ [c])
        (printEscStep X Y (acc.1.escBuf ++ [c]) acc.2).2)
  else
    printEscStep X Y (acc.1.escBuf ++ [c]) acc.2

/-- The main loop of `term_printString` run over the bytes of the string
(a C string holds no NUL, so the list is exactly the traversed bytes). -/
def printRun (X Y B : Nat) (s : List Nat) (m : PrintMachine) (st : TermState) :
    PrintMachine × TermState :=
  s.foldl (printStep X Y B) (m, st)

/-- Appending a `display_termRefresh()` request to the trace. -/
def pushRefresh (st : TermState) : TermState :=
  { st with events := st.events ++ [.drefresh] }

/-- The state after the main loop of `term_printString` and the final
flush of an unfinished escape sequence as literal text (term.c:444-450). -/
def printDrain (X Y B : Nat) (s : List Nat) (st : TermState) : TermState :=
  if (printRun X Y B s ⟨false, []⟩ st).1.inEsc then
    flushEsc X Y (printRun X Y B s ⟨false, []⟩ st).1.escBuf
      (printRun X Y B s ⟨false, []⟩ st).2
  else
    (printRun X Y B s ⟨false, []⟩ st).2

/-- `term_printString` (term.c:401-452): run the escape state machine over
the whole string from NORMAL mode, flush any unfinished escape bytes as
literal text, and request one display refresh at the end. -/
def term_printString (X Y B : Nat) (s : List Nat) (st : TermState) : TermState :=
  pushRefresh (printDrain X Y B s st)

/-- The whitespace class of `sscanf` (space, tab, newline, vertical tab,
form feed, carriage return). -/
def isSpaceByte (c : Nat) : Bool :=
  c = 32 || c = 9 || c = 10 || c = 11 || c = 12 || c = 13

/-- The split performed by
`sscanf(inputBuffer, "%63s %63[^\n]", command, arg)` (term.c:498):
skip leading whitespace, read at most 63 non-whitespace bytes as the
command token, skip whitespace, and read at most 63 bytes up to a newline
as the argument (both buffers were zeroed, so a failed conversion leaves
the empty string). -/
def sscanfSplit (line : List Nat) : List Nat × List Nat :=
  let afterWs := line.dropWhile (fun c => isSpaceByte c)
  let tok := afterWs.takeWhile (fun c => !isSpaceByte c)
  let command := tok.take 63
  let rest := (afterWs.drop command.length).dropWhile (fun c => isSpaceByte c)
  let arg := (rest.takeWhile (fun c => c ≠ 10)).take 63
  (command, arg)

/-- One iteration of the matching loop (term.c:502-507): on a name match,
invoke the handler with the argument and set the `commandFound` flag. -/
def dispatchScanStep (cmd arg : List Nat) (acc : Bool × TermState)
    (p : Nat × List Nat) : Bool × TermState :=
  if p.2 = cmd then
    (true, { acc.2 with events := acc.2.events ++ [.invoke p.1 arg] })
  else acc

/-- The matching loop of `termInputChar` (term.c:501-507): scan the
indexed registry in order, invoking every entry whose name equals the
command token `cmd` with the argument `arg`, while tracking the
`commandFound` flag. -/
def dispatchScan (cmd arg : List Nat) (reg : List (Nat × List Nat))
    (acc : Bool × TermState) : Bool × TermState :=
  reg.foldl (dispatchScanStep cmd arg) acc

/-- One iteration of the unknown-command loop (term.c:511-515): invoke
every empty-named entry with the raw line. -/
def dispatchFallbackStep (line : List Nat) (s : TermState)
    (p : Nat × List Nat) : TermState :=
  if p.2 = [] then { s with events := s.events ++ [.invoke p.1 line] }
  else s

/-- The unknown-command loop of `termInputChar` (term.c:508-516): invoke
every empty-named registry entry with the entire raw line. -/
def dispatchFallback (line : List Nat) (reg : List (Nat × List Nat))
    (st : TermState) : TermState :=
  reg.foldl (dispatchFallbackStep line) st

/-- The registry dispatch of `termInputChar` (term.c:496-516): split the
line, run the matching loop, and when nothing matched and the command
token is non-empty, run the fallback loop.  The registry is the borrowed
`(command, handler)` table; handlers are identified by their index. -/
def dispatchCommands (reg : List (List Nat)) (line : List Nat) (st : TermState) :
    TermState :=
  if (dispatchScan (sscanfSplit line).1 (sscanfSplit line).2 reg.enum (false, st)).1
      = false ∧ (sscanfSplit line).1 ≠ [] then
    dispatchFallback line reg.enum
      (dispatchScan (sscanfSplit line).1 (sscanfSplit line).2 reg.enum (false, st)).2
  else
    (dispatchScan (sscanfSplit line).1 (sscanfSplit line).2 reg.enum (false, st)).2

/-- Zeroing the screen cell under the stepped-back cursor and blanking it
on the display (term.c:478-479). -/
def termBackspaceEraseCell (X : Nat) (st : TermState) : TermState :=
  { st with
    screen := st.screen.set (st.cursorY * X + st.cursorX) 0,
    events := st.events ++ [.dchar st.cursorX st.cursorY 32] }

/-- The common tail of the backspace branch (term.c:482-485): draw the
block cursor at the (possibly moved) position, record it as previous, and
request a display refresh. -/
def termBackspaceTail (st : TermState) : TermState :=
  { st with
    events := st.events ++ [.dcursor st.cursorX st.cursorY, .drefresh],
    prevCursorX := st.cursorX,
    prevCursorY := st.cursorY }

/-- The backspace branch of `termInputChar` (term.c:458-487): erase the
old block cursor glyph; when the line is non-empty, drop its last byte
and step the cursor back — wrapping to the last column of the previous
row when at column 0, or returning early (before any cell erase, cursor
redraw or refresh) when already at the top-left corner — then blank the
vacated cell; finally redraw the cursor and refresh. -/
def termBackspace (X : Nat) (st : TermState) : TermState :=
  if st.inputBuffer.length > 0 then
    if st.cursorX = 0 then
      if st.cursorY > 0 then
        termBackspaceTail (termBackspaceEraseCell X
          { termEraseOldCursor st with
            inputBuffer := st.inputBuffer.dropLast,
            cursorY := st.cursorY - 1,
            cursorX := X - 1 })
      else
        { termEraseOldCursor st with inputBuffer := st.inputBuffer.dropLast }
    else
      termBackspaceTail (termBackspaceEraseCell X
        { termEraseOldCursor st with
          inputBuffer := st.inputBuffer.dropLast,
          cursorX := st.cursorX - 1 })
  else
    termBackspaceTail (termEraseOldCursor st)

/-- The newline branch of `termInputChar` (term.c:490-524): render the
newline, dispatch the accumulated line through the registry, clear the
line buffer, print a fresh prompt and request a refresh. -/
def termSubmitLine (X Y B : Nat) (reg : List (List Nat)) (st : TermState) :
    TermState :=
  pushRefresh (term_printString X Y B [62, 32]
    { dispatchCommands reg st.inputBuffer (termRenderChar X Y 10 st) with
      inputBuffer := [] })

/-- The ordinary-character branch of `termInputChar` (term.c:527-539):
append the byte when capacity remains, render it and refresh; drop it
silently when the buffer is full. -/
def termAppendChar (X Y CAP : Nat) (c : Nat) (st : TermState) : TermState :=
  if st.inputBuffer.length < CAP - 1 then
    pushRefresh (termRenderChar X Y c { st with inputBuffer := st.inputBuffer ++ [c] })
  else
    st

/-- `termInputChar` (term.c:456-540) with input capacity `CAP`
(`TERM_INPUT_BUFFER_SIZE`) and registry `reg`: backspace edits the line,
newline/carriage-return submits it, anything else is appended. -/
def termInputChar (X Y B CAP : Nat) (reg : List (List Nat)) (c : Nat)
    (st : TermState) : TermState :=
  if c = 8 then termBackspace X st
  else if c = 10 ∨ c = 13 then termSubmitLine X Y B reg st
  else termAppendChar X Y CAP c st

/-- `TransmissionProtocol` as used by `term.c`: command discriminator,
declared payload size, bookkeeping fields, and the fixed-capacity payload
buffer (a list of `MAX_PROTOCOL_PAYLOAD_SIZE` bytes). -/
structure TransmissionProtocol where
  command_id : Nat
  payload_size : Nat
  bytes_read : Nat
  final_checksum : Nat
  payload : List Nat
deriving DecidableEq

/-- The command channel globals of term.c:33-37: the two slots
`protocolBuffers`, the read/write role indices, the ready flag, and the
overwrite counter. -/
structure ProtocolChannel where
  buf0 : TransmissionProtocol
  buf1 : TransmissionProtocol
  readIndex : Nat
  writeIndex : Nat
  ready : Bool
  overwriteCount : Nat
deriving DecidableEq

/-- `protocolBuffers[i]` (term.c indexes with bytes 0 and 1). -/
def getSlot (ch : ProtocolChannel) (i : Nat) : TransmissionProtocol :=
  if i = 0 then ch.buf0 else ch.buf1

/-- Writing `protocolBuffers[i]`. -/
def setSlot (ch : ProtocolChannel) (i : Nat) (r : TransmissionProtocol) :
    ProtocolChannel :=
  if i = 0 then { ch with buf0 := r } else { ch with buf1 := r }

/-- The record written into the write slot by `handle_protocol_command`
(term.c:153-166): the header fields (`command_id`, `payload_size`,
`bytes_read`, `final_checksum`) are copied verbatim; the `memcpy` copies
only `min payload_size MAXP` payload bytes — the clamping guards the copy
length, not the stored `payload_size` — so the rest of the slot's
fixed-capacity payload keeps its previous contents `old`. -/
def publishRecord (MAXP : Nat) (p old : TransmissionProtocol) :
    TransmissionProtocol :=
  { command_id := p.command_id
    payload_size := p.payload_size
    bytes_read := p.bytes_read
    final_checksum := p.final_checksum
    payload := p.payload.take (min p.payload_size MAXP) ++
      old.payload.drop (min p.payload_size MAXP) }

/-- term.c:168-170: the overwrite counter increments exactly when the
previous record had not been drained. -/
def bumpOverwrite (ch : ProtocolChannel) : ProtocolChannel :=
  if ch.ready then { ch with overwriteCount := ch.overwriteCount + 1 } else ch

/-- `handle_protocol_command` (term.c:148-177), with
`MAX_PROTOCOL_PAYLOAD_SIZE = MAXP`: copy the clamped record into the write
slot, bump the overwrite counter when the previous record was still
undrained, then publish by swapping the slot roles and setting the ready
flag. -/
def handle_protocol_command (MAXP : Nat) (p : TransmissionProtocol)
    (ch : ProtocolChannel) : ProtocolChannel :=
  { bumpOverwrite
      (setSlot ch ch.writeIndex
        (publishRecord MAXP p (getSlot ch ch.writeIndex))) with
    readIndex := ch.writeIndex
    writeIndex := ch.readIndex
    ready := true }

/-- The critical-section snapshot of `term_loop` (term.c:600-608): when the
ready flag is set, copy the read slot by value, clear the flag and read the
overwrite counter; otherwise nothing is drained. -/
def term_loop_take (ch : ProtocolChannel) :
    Option (TransmissionProtocol × Nat) × ProtocolChannel :=
  if ch.ready then
    (some (getSlot ch ch.readIndex, ch.overwriteCount), { ch with ready := false })
  else
    (none, ch)

/-- A rendering or maintenance call to the screen abstraction: character
cell write, cursor glyph, or physical scroll — everything except a refresh
request or a command-handler invocation. -/
def isRenderEvent : DispEvent → Bool
  | .dchar _ _ _ => true
  | .dcursor _ _ => true
  | .dscroll => true
  | _ => false

/-- Recognizer for display refresh requests. -/
def isRefresh : DispEvent → Bool
  | .drefresh => true
  | _ => false

/-- Recognizer for command-handler invocations. -/
def isInvoke : DispEvent → Bool
  | .invoke _ _ => true
  | _ => false

/-- Number of display refresh requests in a trace. -/
def refreshCount (l : List DispEvent) : Nat := (l.filter isRefresh).length

/-- The subtrace of command-handler invocations. -/
def invokesOf (l : List DispEvent) : List DispEvent := l.filter isInvoke

/-- A state transformer behaves like a pure rendering step: it does not
touch the line editor buffer and only appends character/cursor/scroll
events to the trace (no refresh request, no handler invocation). -/
def RenderLike (f : TermState → TermState) : Prop :=
  ∀ st, (f st).inputBuffer = st.inputBuffer ∧
    ∃ d, (f st).events = st.events ++ d ∧ d.all isRenderEvent = true

/-- The rendering operations named by the cursor-bounds invariant. -/
inductive TermOp where
  | put (c : Nat)
  | render (c : Nat)
  | esc (seq : List Nat)
deriving DecidableEq

/-- Apply one rendering operation. -/
def applyOp (X Y : Nat) (st : TermState) (op : TermOp) : TermState :=
  match op with
  | .put c => termPutChar X Y c st
  | .render c => termRenderChar X Y c st
  | .esc seq => vt52ProcessSequence X Y seq st

/-- Apply a sequence of rendering operations. -/
def applyOps (X Y : Nat) (ops : List TermOp) (st : TermState) : TermState :=
  ops.foldl (applyOp X Y) st

/-- The cursor sits inside the character grid. -/
def cursorInBounds (X Y : Nat) (st : TermState) : Prop :=
  st.cursorX < X ∧ st.cursorY < Y

/-- The dispatch rule exactly as the specification words it: every entry
whose name equals the command token is invoked with the argument; if none
matched and the token is non-empty, every empty-named entry is invoked
with the entire raw line.  Stated independently of the scanning loop so
the loop can be proved to refine it. -/
def specInvocations (reg : List (List Nat)) (line : List Nat) : List DispEvent :=
  if (reg.enum.filter (fun p => p.2 = (sscanfSplit line).1)) ≠ [] then
    (reg.enum.filter (fun p => p.2 = (sscanfSplit line).1)).map
      (fun p => DispEvent.invoke p.1 (sscanfSplit line).2)
  else if (sscanfSplit line).1 ≠ [] then
    (reg.enum.filter (fun p => p.2 = [])).map (fun p => DispEvent.invoke p.1 line)
  else []

/-- A blank 4×3 terminal state used for concrete checks. -/
def stEx : TermState := ⟨List.replicate 12 0, 0, 0, 0, 0, [], []⟩

/-- The byte string `"help"`. -/
def helpLine : List Nat := [104, 101, 108, 112]

/-- The byte string `"put_int foo 42"`. -/
def putIntLine : List Nat := [112, 117, 116, 95, 105, 110, 116, 32, 102, 111, 111, 32, 52, 50]

/-- A state whose pending input line is `"help"`. -/
def stHelp : TermState := { stEx with inputBuffer := helpLine }

/-- A state whose pending input line is `"put_int foo 42"`. -/
def stPutInt : TermState := { stEx with inputBuffer := putIntLine }

/-- A state with one pending input byte and the cursor at the origin. -/
def stOrigin : TermState := { stEx with inputBuffer := [65] }

/-- An all-zero protocol record of payload capacity 3. -/
def recZero : TransmissionProtocol := ⟨0, 0, 0, 0, [0, 0, 0]⟩

/-- A freshly initialised (drained) channel with capacity-3 slots. -/
def chanEx : ProtocolChannel := ⟨recZero, recZero, 0, 1, false, 0⟩

/-- A record whose declared payload size 5 exceeds the capacity 3. -/
def recBig : TransmissionProtocol := ⟨1, 5, 6, 7, [7, 8, 9]⟩

/-- Ten distinct records published back to back in the C2 scenario. -/
def recsTen : List TransmissionProtocol :=
  (List.range 10).map (fun i => ⟨i, 2, 0, 0, [i, i, 0]⟩)

theorem refreshCount_append (a b : List DispEvent) :
    refreshCount (a ++ b) = refreshCount a + refreshCount b := by
  simp [refreshCount, List.filter_append]

theorem refreshCount_of_all_render (l : List DispEvent)
    (h : l.all isRenderEvent = true) : refreshCount l = 0 := by
  simp only [refreshCount, List.length_eq_zero, List.filter_eq_nil_iff]
  intro e he
  have h2 := List.all_eq_true.mp h e he
  cases e <;> simp_all [isRenderEvent, isRefresh]

theorem invokesOf_append (a b : List DispEvent) :
    invokesOf (a ++ b) = invokesOf a ++ invokesOf b := by
  simp [invokesOf, List.filter_append]

theorem invokesOf_of_all_render (l : List DispEvent)
    (h : l.all isRenderEvent = true) : invokesOf l = [] := by
  simp only [invokesOf, List.filter_eq_nil_iff]
  intro e he
  have h2 := List.all_eq_true.mp h e he
  cases e <;> simp_all [isRenderEvent, isInvoke]

theorem renderLike_comp {f g : TermState → TermState}
    (hf : RenderLike f) (hg : RenderLike g) : RenderLike (fun st => g (f st)) := by
  intro st
  obtain ⟨hb1, d1, he1, ha1⟩ := hf st
  obtain ⟨hb2, d2, he2, ha2⟩ := hg (f st)
  refine ⟨by rw [hb2, hb1], d1 ++ d2, ?_, ?_⟩
  · rw [he2, he1, List.append_assoc]
  · simp [List.all_append, ha1, ha2]

theorem renderLike_scroll (X : Nat) : RenderLike (termScrollUp X) := by
  intro st
  exact ⟨rfl, [.dscroll], rfl, rfl⟩

theorem renderLike_lineFeed (X Y : Nat) : RenderLike (termLineFeed X Y) := by
  intro st
  unfold termLineFeed
  split
  · exact ⟨rfl, [.dscroll], rfl, rfl⟩
  · exact ⟨rfl, [], by simp, rfl⟩

theorem renderLike_writeCell (X c : Nat) : RenderLike (termWriteCell X c) := by
  intro st
  exact ⟨rfl, [.dchar st.cursorX st.cursorY c], rfl, rfl⟩

theorem renderLike_put (X Y c : Nat) : RenderLike (termPutChar X Y c) := by
  intro st
  unfold termPutChar
  split
  · exact renderLike_comp (renderLike_writeCell X c) (renderLike_lineFeed X Y) st
  · obtain ⟨hb, d, he, ha⟩ := renderLike_writeCell X c st
    exact ⟨hb, d, he, ha⟩

theorem renderLike_eraseOld : RenderLike termEraseOldCursor := by
  intro st
  exact ⟨rfl, [.dchar st.prevCursorX st.prevCursorY 32], rfl, rfl⟩

theorem renderLike_drawCursor : RenderLike termDrawCursor := by
  intro st
  exact ⟨rfl, [.dcursor st.cursorX st.cursorY], rfl, rfl⟩

theorem renderLike_render (X Y c : Nat) : RenderLike (termRenderChar X Y c) := by
  intro st
  unfold termRenderChar
  split
  · exact renderLike_comp
      (renderLike_comp renderLike_eraseOld (renderLike_lineFeed X Y))
      renderLike_drawCursor st
  · split
    · exact renderLike_comp
        (renderLike_comp renderLike_eraseOld (renderLike_put X Y c))
        renderLike_drawCursor st
    · exact renderLike_comp renderLike_eraseOld renderLike_drawCursor st

theorem renderLike_id : RenderLike (fun st => st) := by
  intro st
  exact ⟨rfl, [], by simp, rfl⟩

theorem foldl_renderLike {α : Type} (g : TermState → α → TermState)
    (hg : ∀ a, RenderLike (fun s => g s a)) (l : List α) :
    RenderLike (fun st => l.foldl g st) := by
  induction l with
  | nil => exact renderLike_id
  | cons a t ih =>
    intro st
    obtain ⟨hb1, d1, he1, ha1⟩ := hg a st
    obtain ⟨hb2, d2, he2, ha2⟩ := ih (g st a)
    have hb1' : (g st a).inputBuffer = st.inputBuffer := hb1
    have he1' : (g st a).events = st.events ++ d1 := he1
    have hb2' : (List.foldl g (g st a) t).inputBuffer = (g st a).inputBuffer := hb2
    have he2' : (List.foldl g (g st a) t).events = (g st a).events ++ d2 := he2
    show (List.foldl g st (a :: t)).inputBuffer = st.inputBuffer ∧
      ∃ d, (List.foldl g st (a :: t)).events = st.events ++ d ∧
        d.all isRenderEvent = true
    rw [List.foldl_cons]
    refine ⟨by rw [hb2', hb1'], d1 ++ d2, ?_, ?_⟩
    · rw [he2', he1', List.append_assoc]
    · simp [List.all_append, ha1, ha2]

theorem renderLike_clearCellStep (X y x : Nat) :
    RenderLike (fun s => clearCellStep X y s x) := by
  intro s
  exact ⟨rfl, [.dchar x y 32], rfl, rfl⟩

theorem renderLike_clearCells (X : Nat) (ys xs : List Nat) :
    RenderLike (termClearCells X ys xs) := by
  intro st
  exact foldl_renderLike (fun s y => xs.foldl (clearCellStep X y) s)
    (fun y => foldl_renderLike (clearCellStep X y)
      (renderLike_clearCellStep X y) xs) ys st

theorem renderLike_vt52Y (X Y : Nat) (seq : List Nat) :
    RenderLike (vt52Y X Y seq) := by
  intro st
  unfold vt52Y
  split
  · exact renderLike_render X Y 0 _
  · exact renderLike_render X Y 0 _

theorem renderLike_vt52 (X Y : Nat) (seq : List Nat) :
    RenderLike (vt52ProcessSequence X Y seq) := by
  intro st
  unfold vt52ProcessSequence
  split
  · exact renderLike_id st
  · split
    · split
      · exact renderLike_render X Y 0 _
      · exact renderLike_render X Y 0 _
    · split
      · exact renderLike_render X Y 0 _
      · exact renderLike_render X Y 0 _
    · split
      · exact renderLike_render X Y 0 _
      · exact renderLike_render X Y 0 _
    · split
      · exact renderLike_render X Y 0 _
      · exact renderLike_render X Y 0 _
    · exact renderLike_comp (renderLike_render X Y 0)
        (renderLike_clearCells X (List.range Y) (List.range X)) _
    · exact renderLike_render X Y 0 _
    · exact renderLike_clearCells X _ _ _
    · exact renderLike_clearCells X _ _ _
    · split
      · exact renderLike_vt52Y X Y seq st
      · exact renderLike_id st
    · exact renderLike_id st

theorem renderLike_flushEsc (X Y : Nat) (esc : List Nat) :
    RenderLike (flushEsc X Y esc) := by
  intro st
  unfold flushEsc
  exact foldl_renderLike _ (fun c => renderLike_render X Y c) esc st

theorem renderLike_printEscStep (X Y : Nat) (buf : List Nat) :
    RenderLike (fun st => (printEscStep X Y buf st).2) := by
  intro st
  unfold printEscStep
  split
  · split
    · exact renderLike_id st
    · exact renderLike_vt52 X Y buf st
  · split
    · exact renderLike_vt52 X Y buf st
    · exact renderLike_id st

theorem printStep_renderLike (X Y B : Nat) (m : PrintMachine) (c : Nat)
    (st : TermState) :
    (printStep X Y B (m, st) c).2.inputBuffer = st.inputBuffer ∧
      ∃ d, (printStep X Y B (m, st) c).2.events = st.events ++ d ∧
        d.all isRenderEvent = true := by
  unfold printStep
  split
  · split
    · exact renderLike_id st
    · exact renderLike_render X Y c st
  · split
    · exact renderLike_comp (renderLike_printEscStep X Y (m.escBuf ++ [c]))
        (renderLike_flushEsc X Y (m.escBuf ++ [c])) st
    · exact renderLike_printEscStep X Y (m.escBuf ++ [c]) st

theorem printRun_renderLike (X Y B : Nat) :
    ∀ (s : List Nat) (m : PrintMachine) (st : TermState),
      (printRun X Y B s m st).2.inputBuffer = st.inputBuffer ∧
        ∃ d, (printRun X Y B s m st).2.events = st.events ++ d ∧
          d.all isRenderEvent = true := by
  intro s
  induction s with
  | nil =>
    intro m st
    exact ⟨rfl, [], by simp [printRun], rfl⟩
  | cons c t ih =>
    intro m st
    obtain ⟨hb1, d1, he1, ha1⟩ := printStep_renderLike X Y B m c st
    have hrw : printRun X Y B (c :: t) m st =
        printRun X Y B t (printStep X Y B (m, st) c).1 (printStep X Y B (m, st) c).2 := by
      unfold printRun
      rw [List.foldl_cons]
    obtain ⟨hb2, d2, he2, ha2⟩ :=
      ih (printStep X Y B (m, st) c).1 (printStep X Y B (m, st) c).2
    rw [hrw]
    refine ⟨by rw [hb2, hb1], d1 ++ d2, ?_, ?_⟩
    · rw [he2, he1, List.append_assoc]
    · simp [List.all_append, ha1, ha2]

theorem printDrain_renderLike (X Y B : Nat) (s : List Nat) :
    RenderLike (printDrain X Y B s) := by
  intro st
  unfold printDrain
  split
  · obtain ⟨hb1, d1, he1, ha1⟩ := printRun_renderLike X Y B s ⟨false, []⟩ st
    obtain ⟨hb2, d2, he2, ha2⟩ :=
      renderLike_flushEsc X Y (printRun X Y B s ⟨false, []⟩ st).1.escBuf
        (printRun X Y B s ⟨false, []⟩ st).2
    refine ⟨by rw [hb2, hb1], d1 ++ d2, ?_, ?_⟩
    · rw [he2, he1, List.append_assoc]
    · simp [List.all_append, ha1, ha2]
  · exact printRun_renderLike X Y B s ⟨false, []⟩ st

theorem foldl_cursorFix {α : Type} (g : TermState → α → TermState)
    (hg : ∀ s a, (g s a).cursorX = s.cursorX ∧ (g s a).cursorY = s.cursorY) :
    ∀ (l : List α) (s : TermState),
      (l.foldl g s).cursorX = s.cursorX ∧ (l.foldl g s).cursorY = s.cursorY := by
  intro l
  induction l with
  | nil => intro s; exact ⟨rfl, rfl⟩
  | cons a t ih =>
    intro s
    rw [List.foldl_cons]
    obtain ⟨h1, h2⟩ := hg s a
    obtain ⟨h3, h4⟩ := ih (g s a)
    exact ⟨h3.trans h1, h4.trans h2⟩

theorem termClearCells_cursor (X : Nat) (ys xs : List Nat) (st : TermState) :
    (termClearCells X ys xs st).cursorX = st.cursorX ∧
      (termClearCells X ys xs st).cursorY = st.cursorY := by
  unfold termClearCells
  exact foldl_cursorFix (fun s y => xs.foldl (clearCellStep X y) s)
    (fun s y => foldl_cursorFix (clearCellStep X y) (fun s2 x => ⟨rfl, rfl⟩) xs s)
    ys st

theorem termLineFeed_bounds (X Y : Nat) (hX : 0 < X) (hY : 0 < Y)
    (st : TermState) : cursorInBounds X Y (termLineFeed X Y st) := by
  unfold termLineFeed
  split
  · exact ⟨hX, by show Y - 1 < Y; omega⟩
  · next h => exact ⟨hX, by show st.cursorY + 1 < Y; omega⟩

theorem termPutChar_bounds (X Y : Nat) (hX : 0 < X) (hY : 0 < Y) (c : Nat)
    (st : TermState) (h : cursorInBounds X Y st) :
    cursorInBounds X Y (termPutChar X Y c st) := by
  unfold termPutChar
  split
  · exact termLineFeed_bounds X Y hX hY _
  · next hx => exact ⟨by show st.cursorX + 1 < X; omega, h.2⟩

theorem termRenderChar_bounds (X Y : Nat) (hX : 0 < X) (hY : 0 < Y) (c : Nat)
    (st : TermState) (h : cursorInBounds X Y st) :
    cursorInBounds X Y (termRenderChar X Y c st) := by
  unfold termRenderChar
  split
  · exact termLineFeed_bounds X Y hX hY _
  · split
    · exact termPutChar_bounds X Y hX hY c _ h
    · exact h

theorem vt52Y_bounds (X Y : Nat) (hX : 0 < X) (hY : 0 < Y) (seq : List Nat)
    (st : TermState) (h : cursorInBounds X Y st) :
    cursorInBounds X Y (vt52Y X Y seq st) := by
  unfold vt52Y
  split
  · next hc =>
    refine termRenderChar_bounds X Y hX hY 0 _ ⟨?_, ?_⟩
    · show ((seq.getD 3 0 : Int) - 32).toNat < X
      omega
    · show ((seq.getD 2 0 : Int) - 32).toNat < Y
      omega
  · exact termRenderChar_bounds X Y hX hY 0 _ h

theorem vt52_bounds (X Y : Nat) (hX : 0 < X) (hY : 0 < Y) (seq : List Nat)
    (st : TermState) (h : cursorInBounds X Y st) :
    cursorInBounds X Y (vt52ProcessSequence X Y seq st) := by
  unfold vt52ProcessSequence
  split
  · exact h
  · split
    · refine termRenderChar_bounds X Y hX hY 0 _ ?_
      split
      · exact ⟨h.1, by show st.cursorY - 1 < Y; have := h.2; omega⟩
      · exact h
    · refine termRenderChar_bounds X Y hX hY 0 _ ?_
      split
      · next h2 => exact ⟨h.1, by show st.cursorY + 1 < Y; omega⟩
      · exact h
    · refine termRenderChar_bounds X Y hX hY 0 _ ?_
      split
      · next h2 => exact ⟨by show st.cursorX + 1 < X; omega, h.2⟩
      · exact h
    · refine termRenderChar_bounds X Y hX hY 0 _ ?_
      split
      · exact ⟨by show st.cursorX - 1 < X; have := h.1; omega, h.2⟩
      · exact h
    · have hc := termClearCells_cursor X (List.range Y) (List.range X)
        (termRenderChar X Y 0 { st with cursorX := 0, cursorY := 0 })
      have hb := termRenderChar_bounds X Y hX hY 0
        { st with cursorX := 0, cursorY := 0 } ⟨hX, hY⟩
      exact ⟨by rw [hc.1]; exact hb.1, by rw [hc.2]; exact hb.2⟩
    · exact termRenderChar_bounds X Y hX hY 0 _ ⟨hX, hY⟩
    · have hc := termClearCells_cursor X (List.range' st.cursorY (Y - st.cursorY))
        (List.range' st.cursorX (X - st.cursorX)) st
      exact ⟨by rw [hc.1]; exact h.1, by rw [hc.2]; exact h.2⟩
    · have hc := termClearCells_cursor X [st.cursorY]
        (List.range' st.cursorX (X - st.cursorX)) st
      exact ⟨by rw [hc.1]; exact h.1, by rw [hc.2]; exact h.2⟩
    · split
      · exact vt52Y_bounds X Y hX hY seq st h
      · exact h
    · exact h

theorem applyOp_bounds (X Y : Nat) (hX : 0 < X) (hY : 0 < Y) (op : TermOp)
    (st : TermState) (h : cursorInBounds X Y st) :
    cursorInBounds X Y (applyOp X Y st op) := by
  cases op with
  | put c => exact termPutChar_bounds X Y hX hY c st h
  | render c => exact termRenderChar_bounds X Y hX hY c st h
  | esc seq => exact vt52_bounds X Y hX hY seq st h

theorem applyOps_bounds (X Y : Nat) (hX : 0 < X) (hY : 0 < Y) :
    ∀ (ops : List TermOp) (st : TermState), cursorInBounds X Y st →
      cursorInBounds X Y (applyOps X Y ops st) := by
  intro ops
  induction ops with
  | nil => intro st h; exact h
  | cons op t ih =>
    intro st h
    unfold applyOps at ih ⊢
    rw [List.foldl_cons]
    exact ih (applyOp X Y st op) (applyOp_bounds X Y hX hY op st h)

theorem printString_events (X Y B : Nat) (s : List Nat) (st : TermState) :
    (term_printString X Y B s st).inputBuffer = st.inputBuffer ∧
      ∃ d, (term_printString X Y B s st).events =
          st.events ++ d ++ [DispEvent.drefresh] ∧ d.all isRenderEvent = true := by
  obtain ⟨hb1, d1, he1, ha1⟩ := printDrain_renderLike X Y B s st
  refine ⟨hb1, d1, ?_, ha1⟩
  show (printDrain X Y B s st).events ++ [DispEvent.drefresh] = _
  rw [he1]

theorem termRenderChar_null (X Y : Nat) (st : TermState) :
    termRenderChar X Y 0 st =
      { st with
        events := st.events ++ [.dchar st.prevCursorX st.prevCursorY 32,
          .dcursor st.cursorX st.cursorY],
        prevCursorX := st.cursorX,
        prevCursorY := st.cursorY } := by
  have e : termRenderChar X Y 0 st = termDrawCursor (termEraseOldCursor st) := rfl
  rw [e]
  unfold termDrawCursor termEraseOldCursor
  simp

theorem vt52_default (X Y : Nat) (seq : List Nat) (st : TermState)
    (h : seq.getD 1 0 ∉ ([65, 66, 67, 68, 69, 72, 74, 75, 89] : List Nat)) :
    vt52ProcessSequence X Y seq st = st := by
  unfold vt52ProcessSequence
  split
  · rfl
  · split
    all_goals first
      | rfl
      | (rename_i heq; rw [heq] at h; simp at h)

theorem termPutChar_wrap (X Y c : Nat) (st : TermState)
    (hw : st.cursorX + 1 ≥ X) (hr : st.cursorY + 1 < Y) :
    (termPutChar X Y c st).cursorX = 0 ∧
      (termPutChar X Y c st).cursorY = st.cursorY + 1 := by
  have hr' : ¬(st.cursorY + 1 ≥ Y) := by omega
  simp [termPutChar, termLineFeed, termWriteCell, hw, hr']

theorem termPutChar_scroll (X Y c : Nat) (st : TermState)
    (hw : st.cursorX + 1 ≥ X) (hr : st.cursorY + 1 ≥ Y) :
    (termPutChar X Y c st).cursorX = 0 ∧
      (termPutChar X Y c st).cursorY = Y - 1 ∧
      (termPutChar X Y c st).screen =
        (st.screen.set (st.cursorY * X + st.cursorX) c).drop X ++
          List.replicate X 0 := by
  simp [termPutChar, termLineFeed, termWriteCell, termScrollUp, hw, hr]

theorem vt52_up (X Y : Nat) (st : TermState) :
    (vt52ProcessSequence X Y [27, 65] st).cursorX = st.cursorX ∧
      (vt52ProcessSequence X Y [27, 65] st).cursorY = st.cursorY - 1 := by
  have e : vt52ProcessSequence X Y [27, 65] st =
      termRenderChar X Y 0
        (if st.cursorY > 0 then { st with cursorY := st.cursorY - 1 } else st) := rfl
  rw [e, termRenderChar_null]
  split
  · exact ⟨rfl, rfl⟩
  · next h => exact ⟨rfl, by show st.cursorY = st.cursorY - 1; omega⟩

theorem vt52_down (X Y : Nat) (st : TermState) (hy : st.cursorY < Y) :
    (vt52ProcessSequence X Y [27, 66] st).cursorX = st.cursorX ∧
      (vt52ProcessSequence X Y [27, 66] st).cursorY = min (st.cursorY + 1) (Y - 1) := by
  have e : vt52ProcessSequence X Y [27, 66] st =
      termRenderChar X Y 0
        (if st.cursorY < Y - 1 then { st with cursorY := st.cursorY + 1 } else st) := rfl
  rw [e, termRenderChar_null]
  split
  · next h => exact ⟨rfl, by show st.cursorY + 1 = _; omega⟩
  · next h => exact ⟨rfl, by show st.cursorY = _; omega⟩

theorem vt52_right (X Y : Nat) (st : TermState) (hx : st.cursorX < X) :
    (vt52ProcessSequence X Y [27, 67] st).cursorY = st.cursorY ∧
      (vt52ProcessSequence X Y [27, 67] st).cursorX = min (st.cursorX + 1) (X - 1) := by
  have e : vt52ProcessSequence X Y [27, 67] st =
      termRenderChar X Y 0
        (if st.cursorX < X - 1 then { st with cursorX := st.cursorX + 1 } else st) := rfl
  rw [e, termRenderChar_null]
  split
  · next h => exact ⟨rfl, by show st.cursorX + 1 = _; omega⟩
  · next h => exact ⟨rfl, by show st.cursorX = _; omega⟩

theorem vt52_left (X Y : Nat) (st : TermState) :
    (vt52ProcessSequence X Y [27, 68] st).cursorY = st.cursorY ∧
      (vt52ProcessSequence X Y [27, 68] st).cursorX = st.cursorX - 1 := by
  have e : vt52ProcessSequence X Y [27, 68] st =
      termRenderChar X Y 0
        (if st.cursorX > 0 then { st with cursorX := st.cursorX - 1 } else st) := rfl
  rw [e, termRenderChar_null]
  split
  · exact ⟨rfl, rfl⟩
  · next h => exact ⟨rfl, by show st.cursorX = st.cursorX - 1; omega⟩

theorem printDrain_normal (X Y B : Nat) (s buf : List Nat) (st st' : TermState)
    (h : printRun X Y B s ⟨false, []⟩ st = (⟨false, buf⟩, st')) :
    printDrain X Y B s st = st' := by
  unfold printDrain
  rw [h]
  simp

theorem printRun_two (X Y B c : Nat) (st : TermState) (hc : c ≠ 89)
    (hB : 3 ≤ B) :
    printRun X Y B [27, c] ⟨false, []⟩ st =
      (⟨false, [27, c]⟩, vt52ProcessSequence X Y [27, c] st) := by
  have h2 : ¬(2 ≥ B) := by omega
  simp [printRun, printStep, printEscStep, hc, h2]

theorem printRun_escY (X Y B r c : Nat) (st : TermState) (hB : 5 ≤ B) :
    printRun X Y B [27, 89, r, c] ⟨false, []⟩ st =
      (⟨false, [27, 89, r, c]⟩, vt52ProcessSequence X Y [27, 89, r, c] st) := by
  have h2 : ¬(2 ≥ B) := by omega
  have h3 : ¬(3 ≥ B) := by omega
  have h4 : ¬(4 ≥ B) := by omega
  simp [printRun, printStep, printEscStep, h2, h3, h4]

theorem vt52_escY_eq (X Y r c : Nat) (st : TermState) :
    vt52ProcessSequence X Y [27, 89, r, c] st = vt52Y X Y [27, 89, r, c] st := rfl

theorem vt52Y_move (X Y : Nat) (seq : List Nat) (st : TermState)
    (h : 0 ≤ (seq.getD 2 0 : Int) - 32 ∧ (seq.getD 2 0 : Int) - 32 < (Y : Int) ∧
        0 ≤ (seq.getD 3 0 : Int) - 32 ∧ (seq.getD 3 0 : Int) - 32 < (X : Int)) :
    vt52Y X Y seq st = termRenderChar X Y 0
      { st with
        cursorY := ((seq.getD 2 0 : Int) - 32).toNat,
        cursorX := ((seq.getD 3 0 : Int) - 32).toNat } := by
  unfold vt52Y
  rw [if_pos h]

theorem vt52Y_ignore (X Y : Nat) (seq : List Nat) (st : TermState)
    (h : ¬(0 ≤ (seq.getD 2 0 : Int) - 32 ∧ (seq.getD 2 0 : Int) - 32 < (Y : Int) ∧
        0 ≤ (seq.getD 3 0 : Int) - 32 ∧ (seq.getD 3 0 : Int) - 32 < (X : Int))) :
    vt52Y X Y seq st = termRenderChar X Y 0 st := by
  unfold vt52Y
  rw [if_neg h]

/-- C10: calling `term_printString` on the empty string leaves the screen
grid, cursor position, previous-cursor position, and input buffer
unchanged, and still requests exactly one display refresh. -/
theorem C10_print_empty_frame (X Y B : Nat) (st : TermState) :
    (term_printString X Y B [] st).screen = st.screen ∧
    (term_printString X Y B [] st).cursorX = st.cursorX ∧
    (term_printString X Y B [] st).cursorY = st.cursorY ∧
    (term_printString X Y B [] st).prevCursorX = st.prevCursorX ∧
    (term_printString X Y B [] st).prevCursorY = st.prevCursorY ∧
    (term_printString X Y B [] st).inputBuffer = st.inputBuffer ∧
    (term_printString X Y B [] st).events = st.events ++ [DispEvent.drefresh] := by
  have e : term_printString X Y B [] st = pushRefresh st := by
    unfold term_printString
    rw [printDrain_normal X Y B [] [] st st rfl]
  rw [e]
  exact ⟨rfl, rfl, rfl, rfl, rfl, rfl, rfl⟩

/-- C9: for a two-byte escape sequence `ESC` followed by a command byte
outside the recognized set `{A, B, C, D, E, H, J, K, Y}`,
`term_printString` consumes both bytes silently and returns to NORMAL
mode: screen grid, cursor and previous-cursor are unchanged, the bytes
are not echoed (only the final refresh is requested). -/
theorem C9_unrecognized_escape (X Y B c : Nat) (st : TermState)
    (hc : c ∉ ([65, 66, 67, 68, 69, 72, 74, 75, 89] : List Nat)) (hB : 3 ≤ B) :
    (term_printString X Y B [27, c] st).screen = st.screen ∧
    (term_printString X Y B [27, c] st).cursorX = st.cursorX ∧
    (term_printString X Y B [27, c] st).cursorY = st.cursorY ∧
    (term_printString X Y B [27, c] st).prevCursorX = st.prevCursorX ∧
    (term_printString X Y B [27, c] st).prevCursorY = st.prevCursorY ∧
    (term_printString X Y B [27, c] st).events =
      st.events ++ [DispEvent.drefresh] ∧
    (printRun X Y B [27, c] ⟨false, []⟩ st).1.inEsc = false := by
  have hc89 : c ≠ 89 := fun h => hc (by simp [h])
  have hrun := printRun_two X Y B c st hc89 hB
  have hv : vt52ProcessSequence X Y [27, c] st = st :=
    vt52_default X Y [27, c] st (by simpa using hc)
  have e : term_printString X Y B [27, c] st = pushRefresh st := by
    unfold term_printString
    rw [printDrain_normal X Y B [27, c] [27, c] st st (by rw [hrun, hv])]
  rw [e]
  refine ⟨rfl, rfl, rfl, rfl, rfl, rfl, ?_⟩
  rw [hrun]

/-- C5: rendering `ESC Y` with biased row 2, column 5 moves the cursor
exactly to column 5, row 2 when in bounds; with out-of-range row 99 the
cursor and screen are unchanged, yet the whole 4-byte sequence is
consumed (nothing is echoed; only the cursor redraw and the final refresh
are issued) and the machine returns to NORMAL mode. -/
theorem C5_direct_addressing (X Y B : Nat) (st : TermState)
    (h2 : 2 < Y) (h5 : 5 < X) (hB : 5 ≤ B) (h99 : Y ≤ 99) :
    (term_printString X Y B [27, 89, 34, 37] st).cursorX = 5 ∧
    (term_printString X Y B [27, 89, 34, 37] st).cursorY = 2 ∧
    (printRun X Y B [27, 89, 34, 37] ⟨false, []⟩ st).1.inEsc = false ∧
    (term_printString X Y B [27, 89, 131, 37] st).cursorX = st.cursorX ∧
    (term_printString X Y B [27, 89, 131, 37] st).cursorY = st.cursorY ∧
    (term_printString X Y B [27, 89, 131, 37] st).screen = st.screen ∧
    (term_printString X Y B [27, 89, 131, 37] st).events =
      st.events ++ [DispEvent.dchar st.prevCursorX st.prevCursorY 32,
        DispEvent.dcursor st.cursorX st.cursorY, DispEvent.drefresh] ∧
    (printRun X Y B [27, 89, 131, 37] ⟨false, []⟩ st).1.inEsc = false := by
  have hrun1 := printRun_escY X Y B 34 37 st hB
  have hrun2 := printRun_escY X Y B 131 37 st hB
  have hv1 : vt52ProcessSequence X Y [27, 89, 34, 37] st =
      termRenderChar X Y 0 { st with cursorY := 2, cursorX := 5 } := by
    rw [vt52_escY_eq, vt52Y_move X Y [27, 89, 34, 37] st ?_]
    · rfl
    · rw [show ([27, 89, 34, 37] : List Nat).getD 2 0 = 34 from rfl,
        show ([27, 89, 34, 37] : List Nat).getD 3 0 = 37 from rfl]
      omega
  have hv2 : vt52ProcessSequence X Y [27, 89, 131, 37] st =
      termRenderChar X Y 0 st := by
    rw [vt52_escY_eq, vt52Y_ignore X Y [27, 89, 131, 37] st ?_]
    rw [show ([27, 89, 131, 37] : List Nat).getD 2 0 = 131 from rfl,
      show ([27, 89, 131, 37] : List Nat).getD 3 0 = 37 from rfl]
    omega
  have e1 : term_printString X Y B [27, 89, 34, 37] st =
      pushRefresh (termRenderChar X Y 0 { st with cursorY := 2, cursorX := 5 }) := by
    unfold term_printString
    rw [printDrain_normal X Y B [27, 89, 34, 37] [27, 89, 34, 37] st _
      (by rw [hrun1, hv1])]
  have e2 : term_printString X Y B [27, 89, 131, 37] st =
      pushRefresh (termRenderChar X Y 0 st) := by
    unfold term_printString
    rw [printDrain_normal X Y B [27, 89, 131, 37] [27, 89, 131, 37] st _
      (by rw [hrun2, hv2])]
  refine ⟨?_, ?_, ?_, ?_, ?_, ?_, ?_, ?_⟩
  · rw [e1, termRenderChar_null]
    rfl
  · rw [e1, termRenderChar_null]
    rfl
  · rw [hrun1]
  · rw [e2, termRenderChar_null]
    rfl
  · rw [e2, termRenderChar_null]
    rfl
  · rw [e2, termRenderChar_null]
    rfl
  · rw [e2, termRenderChar_null]
    simp [pushRefresh]
  · rw [hrun2]

/-- C6: a single call to `term_printString` fully consumes the string and
leaves the escape state machine in NORMAL mode — when the string ends
mid-sequence the accumulated escape bytes are first flushed through
normal rendering — and the call requests a display refresh exactly once,
as the final external call. -/
theorem C6_print_drains_one_refresh (X Y B : Nat) (s : List Nat) (st : TermState) :
    (∃ d, (term_printString X Y B s st).events =
        st.events ++ d ++ [DispEvent.drefresh] ∧ refreshCount d = 0) ∧
    term_printString X Y B s st =
      pushRefresh (cond (printRun X Y B s ⟨false, []⟩ st).1.inEsc
        (flushEsc X Y (printRun X Y B s ⟨false, []⟩ st).1.escBuf
          (printRun X Y B s ⟨false, []⟩ st).2)
        (printRun X Y B s ⟨false, []⟩ st).2) := by
  constructor
  · obtain ⟨hb, d, he, ha⟩ := printString_events X Y B s st
    exact ⟨d, he, refreshCount_of_all_render d ha⟩
  · unfold term_printString printDrain
    cases h : (printRun X Y B s ⟨false, []⟩ st).1.inEsc <;> simp [h]

/-- C4: for every sequence of rendered characters and escape operations
the cursor stays within `[0, X) × [0, Y)`; writing past the last column
wraps to column 0 of the next row; writing past the last row scrolls the
grid up one row and blanks the new bottom row; and the four
cursor-movement escapes clamp at the grid edges (no-op at an edge rather
than wrapping). -/
theorem C4_cursor_bounds (X Y : Nat) (st : TermState) (ops : List TermOp)
    (c : Nat) (hX : 0 < X) (hY : 0 < Y) (hx : st.cursorX < X)
    (hy : st.cursorY < Y) :
    cursorInBounds X Y (applyOps X Y ops st) ∧
    (st.cursorX + 1 = X → st.cursorY + 1 < Y →
      (termPutChar X Y c st).cursorX = 0 ∧
      (termPutChar X Y c st).cursorY = st.cursorY + 1) ∧
    (st.cursorX + 1 = X → st.cursorY + 1 = Y →
      (termPutChar X Y c st).cursorX = 0 ∧
      (termPutChar X Y c st).cursorY = Y - 1 ∧
      (termPutChar X Y c st).screen =
        (st.screen.set (st.cursorY * X + st.cursorX) c).drop X ++
          List.replicate X 0) ∧
    ((vt52ProcessSequence X Y [27, 65] st).cursorX = st.cursorX ∧
      (vt52ProcessSequence X Y [27, 65] st).cursorY = st.cursorY - 1) ∧
    ((vt52ProcessSequence X Y [27, 66] st).cursorX = st.cursorX ∧
      (vt52ProcessSequence X Y [27, 66] st).cursorY = min (st.cursorY + 1) (Y - 1)) ∧
    ((vt52ProcessSequence X Y [27, 67] st).cursorY = st.cursorY ∧
      (vt52ProcessSequence X Y [27, 67] st).cursorX = min (st.cursorX + 1) (X - 1)) ∧
    ((vt52ProcessSequence X Y [27, 68] st).cursorY = st.cursorY ∧
      (vt52ProcessSequence X Y [27, 68] st).cursorX = st.cursorX - 1) := by
  refine ⟨applyOps_bounds X Y hX hY ops st ⟨hx, hy⟩, ?_, ?_,
    vt52_up X Y st, vt52_down X Y st hy, vt52_right X Y st hx, vt52_left X Y st⟩
  · intro hw hr
    exact termPutChar_wrap X Y c st (by omega) hr
  · intro hw hr
    exact termPutChar_scroll X Y c st (by omega) (by omega)

/-- Concrete instance of the C4 cursor-bounds invariant on a 4×3 grid. -/
theorem C4_cursor_bounds_witness :
    cursorInBounds 4 3 (applyOps 4 3
      [TermOp.put 65, TermOp.render 10, TermOp.esc [27, 65],
        TermOp.esc [27, 89, 33, 34]] stEx) ∧
    (vt52ProcessSequence 4 3 [27, 65] stEx).cursorY = stEx.cursorY - 1 :=
  ⟨(C4_cursor_bounds 4 3 stEx
      [TermOp.put 65, TermOp.render 10, TermOp.esc [27, 65],
        TermOp.esc [27, 89, 33, 34]] 66
      (by decide) (by decide) (by decide) (by decide)).1,
   (C4_cursor_bounds 4 3 stEx [] 66
      (by decide) (by decide) (by decide) (by decide)).2.2.2.1.2⟩

/-- C7 counterexample: backspace at cursor (0,0) with a non-empty line
does change the input-buffer length, refuting the claim's blanket
"leaves the input-buffer length at its current value". -/
theorem C7_counterexample :
    stOrigin.cursorX = 0 ∧ stOrigin.cursorY = 0 ∧
    ¬((termInputChar 4 3 8 64 [] 8 stOrigin).inputBuffer.length
        = stOrigin.inputBuffer.length) :=
  ⟨rfl, rfl, by decide⟩

/-- C7 (amended): a backspace with an empty input buffer is a no-op on
the line buffer, cursor and screen; a backspace at cursor (0,0) leaves
the cursor at (0,0) (never negative) and leaves the buffer length
unchanged only when the buffer is empty — a non-empty buffer still loses
its last character. -/
theorem C7_backspace_safety (X Y B CAP : Nat) (reg : List (List Nat))
    (st : TermState) :
    (st.inputBuffer = [] →
      (termInputChar X Y B CAP reg 8 st).cursorX = st.cursorX ∧
      (termInputChar X Y B CAP reg 8 st).cursorY = st.cursorY ∧
      (termInputChar X Y B CAP reg 8 st).inputBuffer = [] ∧
      (termInputChar X Y B CAP reg 8 st).screen = st.screen) ∧
    (st.cursorX = 0 → st.cursorY = 0 →
      (termInputChar X Y B CAP reg 8 st).cursorX = 0 ∧
      (termInputChar X Y B CAP reg 8 st).cursorY = 0 ∧
      (termInputChar X Y B CAP reg 8 st).inputBuffer = st.inputBuffer.dropLast) := by
  have e0 : termInputChar X Y B CAP reg 8 st = termBackspace X st := by
    unfold termInputChar
    rw [if_pos rfl]
  constructor
  · intro hemp
    rw [e0]
    have e : termBackspace X st = termBackspaceTail (termEraseOldCursor st) := by
      unfold termBackspace
      rw [if_neg (by simp [hemp])]
    rw [e]
    exact ⟨rfl, rfl, hemp, rfl⟩
  · intro hx hy
    rw [e0]
    by_cases hemp : st.inputBuffer = []
    · have e : termBackspace X st = termBackspaceTail (termEraseOldCursor st) := by
        unfold termBackspace
        rw [if_neg (by simp [hemp])]
      rw [e]
      refine ⟨hx, hy, ?_⟩
      show st.inputBuffer = st.inputBuffer.dropLast
      rw [hemp]
      rfl
    · have hlen : st.inputBuffer.length > 0 := List.length_pos.mpr hemp
      have e : termBackspace X st =
          { termEraseOldCursor st with inputBuffer := st.inputBuffer.dropLast } := by
        unfold termBackspace
        rw [if_pos hlen, if_pos hx, if_neg (by omega)]
      rw [e]
      exact ⟨hx, hy, rfl⟩

/-- Concrete instances of the two amended C7 cases. -/
theorem C7_backspace_safety_witness :
    ((termInputChar 4 3 8 64 [] 8 stEx).cursorX = stEx.cursorX ∧
      (termInputChar 4 3 8 64 [] 8 stEx).cursorY = stEx.cursorY ∧
      (termInputChar 4 3 8 64 [] 8 stEx).inputBuffer = [] ∧
      (termInputChar 4 3 8 64 [] 8 stEx).screen = stEx.screen) ∧
    ((termInputChar 4 3 8 64 [] 8 stOrigin).cursorX = 0 ∧
      (termInputChar 4 3 8 64 [] 8 stOrigin).cursorY = 0 ∧
      (termInputChar 4 3 8 64 [] 8 stOrigin).inputBuffer =
        stOrigin.inputBuffer.dropLast) :=
  ⟨(C7_backspace_safety 4 3 8 64 [] stEx).1 rfl,
   (C7_backspace_safety 4 3 8 64 [] stOrigin).2 rfl rfl⟩

/-- C8: a backspace at cursor (0,0) with a non-empty input buffer still
removes the last buffered character, but returns early: no screen cell is
cleared, the block cursor is not redrawn, no refresh is requested, the
previous-cursor record is untouched — only the erase of the previous
cursor glyph has been issued. -/
theorem C8_backspace_origin_nonempty (X Y B CAP : Nat) (reg : List (List Nat))
    (st : TermState) (hne : st.inputBuffer ≠ []) (hx : st.cursorX = 0)
    (hy : st.cursorY = 0) :
    termInputChar X Y B CAP reg 8 st =
      { st with
        inputBuffer := st.inputBuffer.dropLast,
        events := st.events ++ [DispEvent.dchar st.prevCursorX st.prevCursorY 32] } ∧
    (termInputChar X Y B CAP reg 8 st).inputBuffer.length + 1 =
      st.inputBuffer.length := by
  have hlen : st.inputBuffer.length > 0 := List.length_pos.mpr hne
  have e : termInputChar X Y B CAP reg 8 st =
      { termEraseOldCursor st with inputBuffer := st.inputBuffer.dropLast } := by
    unfold termInputChar termBackspace
    rw [if_pos rfl, if_pos hlen, if_pos hx, if_neg (by omega)]
  constructor
  · rw [e]
    rfl
  · rw [e]
    show st.inputBuffer.dropLast.length + 1 = st.inputBuffer.length
    rw [List.length_dropLast]
    omega

theorem dispatchScan_spec (cmd arg : List Nat) :
    ∀ (l : List (Nat × List Nat)) (b : Bool) (st : TermState),
      dispatchScan cmd arg l (b, st) =
        (b || l.any (fun p => p.2 = cmd),
         { st with events := st.events ++ ((l.filter (fun p => p.2 = cmd)).map
             (fun p => DispEvent.invoke p.1 arg)) }) := by
  intro l
  induction l with
  | nil =>
    intro b st
    simp [dispatchScan]
  | cons p t ih =>
    intro b st
    by_cases hp : p.2 = cmd
    · have h1 : dispatchScan cmd arg (p :: t) (b, st) =
          dispatchScan cmd arg t
            (true, { st with events := st.events ++ [.invoke p.1 arg] }) := by
        unfold dispatchScan
        rw [List.foldl_cons]
        unfold dispatchScanStep
        rw [if_pos hp]
      rw [h1, ih]
      simp [hp, List.filter_cons, List.any_cons, List.append_assoc]
    · have h1 : dispatchScan cmd arg (p :: t) (b, st) =
          dispatchScan cmd arg t (b, st) := by
        unfold dispatchScan
        rw [List.foldl_cons]
        unfold dispatchScanStep
        rw [if_neg hp]
      rw [h1, ih]
      simp [hp, List.filter_cons, List.any_cons]

theorem dispatchFallback_spec (line : List Nat) :
    ∀ (l : List (Nat × List Nat)) (st : TermState),
      dispatchFallback line l st =
        { st with events := st.events ++ ((l.filter
            (fun p => p.2 = ([] : List Nat))).map
            (fun p => DispEvent.invoke p.1 line)) } := by
  intro l
  induction l with
  | nil =>
    intro st
    simp [dispatchFallback]
  | cons p t ih =>
    intro st
    by_cases hp : p.2 = ([] : List Nat)
    · have h1 : dispatchFallback line (p :: t) st =
          dispatchFallback line t
            { st with events := st.events ++ [.invoke p.1 line] } := by
        unfold dispatchFallback
        rw [List.foldl_cons]
        unfold dispatchFallbackStep
        rw [if_pos hp]
      rw [h1, ih]
      simp [hp, List.filter_cons, List.append_assoc]
    · have h1 : dispatchFallback line (p :: t) st =
          dispatchFallback line t st := by
        unfold dispatchFallback
        rw [List.foldl_cons]
        unfold dispatchFallbackStep
        rw [if_neg hp]
      rw [h1, ih]
      simp [hp, List.filter_cons]

theorem dispatchCommands_spec (reg : List (List Nat)) (line : List Nat)
    (st : TermState) :
    dispatchCommands reg line st =
      { st with events := st.events ++ specInvocations reg line } := by
  have hiff : reg.enum.any (fun p => p.2 = (sscanfSplit line).1) = false ↔
      (reg.enum.filter (fun p => p.2 = (sscanfSplit line).1)) = [] := by
    rw [List.any_eq_false, List.filter_eq_nil_iff]
  unfold dispatchCommands specInvocations
  rw [dispatchScan_spec]
  by_cases hany : reg.enum.any (fun p => p.2 = (sscanfSplit line).1) = false
  · have hfil := hiff.mp hany
    by_cases hcmd : (sscanfSplit line).1 = []
    · rw [if_neg (by simp [hcmd]), if_neg (by simp [hfil]), if_neg (by simp [hcmd])]
      simp [hfil]
    · rw [if_pos (by simp [hany, hcmd]), dispatchFallback_spec]
      rw [if_neg (by simp [hfil]), if_pos hcmd]
      simp [hfil]
  · have hfil : ¬((reg.enum.filter (fun p => p.2 = (sscanfSplit line).1)) = []) :=
      fun h => hany (hiff.mpr h)
    rw [if_neg (by simp [Bool.not_eq_false] at hany; simp [hany]), if_pos hfil]

theorem invokesOf_map_invoke (l : List (Nat × List Nat)) (arg : List Nat) :
    invokesOf (l.map (fun p => DispEvent.invoke p.1 arg)) =
      l.map (fun p => DispEvent.invoke p.1 arg) := by
  induction l with
  | nil => rfl
  | cons p t ih =>
    simp only [List.map_cons, invokesOf, List.filter_cons] at ih ⊢
    rw [show isInvoke (DispEvent.invoke p.1 arg) = true from rfl]
    simp only [if_true, ih]

theorem invokesOf_specInvocations (reg : List (List Nat)) (line : List Nat) :
    invokesOf (specInvocations reg line) = specInvocations reg line := by
  unfold specInvocations
  split
  · exact invokesOf_map_invoke _ _
  · split
    · exact invokesOf_map_invoke _ _
    · rfl

theorem invokesOf_of_render_all (d : List DispEvent)
    (h : d.all isRenderEvent = true) : invokesOf d = [] :=
  invokesOf_of_all_render d h

/-- C3: on newline the line editor splits the buffered line with
`sscanf("%63s %63[^\n]")`, invokes every registry entry whose name equals
the command token with the argument — and, when none matched and the
token is non-empty, every empty-named entry with the entire raw line —
then clears the input buffer and prints a fresh prompt ending in a
refresh.  In particular `"help"` against a registered `("help", h)` entry
invokes `h("")`, and `"put_int foo 42"` with only a fallback `("", u)`
entry invokes `u("put_int foo 42")`. -/
theorem termRenderChar_glyph_mem (X Y c : Nat) (st : TermState)
    (h : ¬(c = 10 ∨ c = 13)) (h0 : c ≠ 0) :
    ∃ d, (termRenderChar X Y c st).events = st.events ++ d ∧
      DispEvent.dchar st.cursorX st.cursorY c ∈ d := by
  have e1 : termRenderChar X Y c st =
      termDrawCursor (termPutChar X Y c (termEraseOldCursor st)) := by
    unfold termRenderChar
    rw [if_neg h, if_pos h0]
  rw [e1]
  unfold termPutChar
  split
  · unfold termLineFeed
    split
    · refine ⟨[DispEvent.dchar st.prevCursorX st.prevCursorY 32,
        DispEvent.dchar st.cursorX st.cursorY c, DispEvent.dscroll,
        DispEvent.dcursor 0 (Y - 1)], ?_, by simp⟩
      simp [termDrawCursor, termScrollUp, termWriteCell, termEraseOldCursor]
    · refine ⟨[DispEvent.dchar st.prevCursorX st.prevCursorY 32,
        DispEvent.dchar st.cursorX st.cursorY c,
        DispEvent.dcursor 0 (st.cursorY + 1)], ?_, by simp⟩
      simp [termDrawCursor, termWriteCell, termEraseOldCursor]
  · refine ⟨[DispEvent.dchar st.prevCursorX st.prevCursorY 32,
      DispEvent.dchar st.cursorX st.cursorY c,
      DispEvent.dcursor (st.cursorX + 1) st.cursorY], ?_, by simp⟩
    simp [termDrawCursor, termWriteCell, termEraseOldCursor]

/-- C3: on newline the line editor splits the buffered line with
`sscanf("%63s %63[^\n]")`, invokes every registry entry whose name equals
the command token with the argument — and, when none matched and the
token is non-empty, every empty-named entry with the entire raw line —
then clears the input buffer and prints a fresh prompt regardless of
match outcome: after the dispatch, the subsequent external calls write
the prompt glyphs 0x3E `>` at the cursor and 0x20 (space) at the
advanced cursor and end with a display refresh.  In particular `"help"`
against a registered `("help", h)` entry invokes `h("")` and draws the
prompt `>` at cell (0,1), and `"put_int foo 42"` with only a fallback
`("", u)` entry invokes `u("put_int foo 42")`. -/
theorem C3_newline_dispatch (X Y B CAP : Nat) (reg : List (List Nat))
    (st : TermState) :
    invokesOf (termInputChar X Y B CAP reg 10 st).events
      = invokesOf st.events ++ specInvocations reg st.inputBuffer ∧
    (termInputChar X Y B CAP reg 10 st).inputBuffer = [] ∧
    (∃ d, (termInputChar X Y B CAP reg 10 st).events = st.events ++ d ∧
      d.getLast? = some DispEvent.drefresh) ∧
    (∃ d, (termInputChar X Y B CAP reg 10 st).events =
        (dispatchCommands reg st.inputBuffer (termRenderChar X Y 10 st)).events
          ++ d ∧
      DispEvent.dchar
        (dispatchCommands reg st.inputBuffer (termRenderChar X Y 10 st)).cursorX
        (dispatchCommands reg st.inputBuffer (termRenderChar X Y 10 st)).cursorY
        62 ∈ d ∧
      DispEvent.dchar
        (termRenderChar X Y 62 { dispatchCommands reg st.inputBuffer (termRenderChar X Y 10 st) with inputBuffer := [] }).cursorX
        (termRenderChar X Y 62 { dispatchCommands reg st.inputBuffer (termRenderChar X Y 10 st) with inputBuffer := [] }).cursorY
        32 ∈ d ∧
      d.getLast? = some DispEvent.drefresh) ∧
    invokesOf (termInputChar 4 3 8 64 [helpLine] 10 stHelp).events
      = [DispEvent.invoke 0 []] ∧
    DispEvent.dchar 0 1 62 ∈ (termInputChar 4 3 8 64 [helpLine] 10 stHelp).events ∧
    invokesOf (termInputChar 4 3 8 64 [[]] 10 stPutInt).events
      = [DispEvent.invoke 0 putIntLine] := by
  have e0 : termInputChar X Y B CAP reg 10 st = termSubmitLine X Y B reg st := by
    unfold termInputChar
    rw [if_neg (by norm_num), if_pos (Or.inl rfl)]
  obtain ⟨hbr, dr, her, har⟩ := renderLike_render X Y 10 st
  have hd := dispatchCommands_spec reg st.inputBuffer (termRenderChar X Y 10 st)
  obtain ⟨hbp, dp, hep, hap⟩ := printString_events X Y B [62, 32]
    { dispatchCommands reg st.inputBuffer (termRenderChar X Y 10 st) with
      inputBuffer := [] }
  have hev : (termInputChar X Y B CAP reg 10 st).events =
      st.events ++ (dr ++ specInvocations reg st.inputBuffer ++ dp ++
        [DispEvent.drefresh] ++ [DispEvent.drefresh]) := by
    rw [e0]
    show (term_printString X Y B [62, 32] _).events ++ [DispEvent.drefresh] = _
    rw [hep]
    show (dispatchCommands reg st.inputBuffer (termRenderChar X Y 10 st)).events
        ++ dp ++ [DispEvent.drefresh] ++ [DispEvent.drefresh] = _
    rw [hd]
    show (termRenderChar X Y 10 st).events ++ specInvocations reg st.inputBuffer
        ++ dp ++ [DispEvent.drefresh] ++ [DispEvent.drefresh] = _
    rw [her]
    simp [List.append_assoc]
  refine ⟨?_, ?_, ?_, ?_, by decide, by decide, by decide⟩
  · rw [hev, invokesOf_append, invokesOf_append, invokesOf_append,
      invokesOf_append, invokesOf_append]
    rw [invokesOf_of_render_all dr har, invokesOf_of_render_all dp hap,
      invokesOf_specInvocations]
    simp [invokesOf, isInvoke]
  · rw [e0]
    show (term_printString X Y B [62, 32] _).inputBuffer = []
    rw [hbp]
  · refine ⟨dr ++ specInvocations reg st.inputBuffer ++ dp ++
      [DispEvent.drefresh] ++ [DispEvent.drefresh], ?_, ?_⟩
    · exact hev
    · exact List.getLast?_concat _
  · have hrun : printRun X Y B [62, 32] ⟨false, []⟩
        { dispatchCommands reg st.inputBuffer (termRenderChar X Y 10 st) with inputBuffer := [] } =
        (⟨false, []⟩, termRenderChar X Y 32 (termRenderChar X Y 62
          { dispatchCommands reg st.inputBuffer (termRenderChar X Y 10 st) with inputBuffer := [] })) := rfl
    have ed := printDrain_normal X Y B [62, 32] []
      { dispatchCommands reg st.inputBuffer (termRenderChar X Y 10 st) with inputBuffer := [] }
      (termRenderChar X Y 32 (termRenderChar X Y 62
        { dispatchCommands reg st.inputBuffer (termRenderChar X Y 10 st) with inputBuffer := [] }))
      hrun
    have e : termInputChar X Y B CAP reg 10 st =
        pushRefresh (pushRefresh (termRenderChar X Y 32 (termRenderChar X Y 62
          { dispatchCommands reg st.inputBuffer (termRenderChar X Y 10 st) with inputBuffer := [] }))) := by
      rw [e0]
      show pushRefresh (term_printString X Y B [62, 32]
        { dispatchCommands reg st.inputBuffer (termRenderChar X Y 10 st) with inputBuffer := [] }) = _
      unfold term_printString
      rw [ed]
    obtain ⟨d1, hd1, hm1⟩ := termRenderChar_glyph_mem X Y 62
      { dispatchCommands reg st.inputBuffer (termRenderChar X Y 10 st) with inputBuffer := [] }
      (by norm_num) (by norm_num)
    obtain ⟨d2, hd2, hm2⟩ := termRenderChar_glyph_mem X Y 32
      (termRenderChar X Y 62
        { dispatchCommands reg st.inputBuffer (termRenderChar X Y 10 st) with inputBuffer := [] })
      (by norm_num) (by norm_num)
    refine ⟨(d1 ++ (d2 ++ [DispEvent.drefresh])) ++ [DispEvent.drefresh],
      ?_, ?_, ?_, List.getLast?_concat _⟩
    · rw [e]
      show ((termRenderChar X Y 32 (termRenderChar X Y 62
          { dispatchCommands reg st.inputBuffer (termRenderChar X Y 10 st) with inputBuffer := [] })).events
        ++ [DispEvent.drefresh]) ++ [DispEvent.drefresh] = _
      rw [hd2, hd1]
      simp [List.append_assoc]
    · exact List.mem_append.mpr (Or.inl (List.mem_append.mpr (Or.inl hm1)))
    · exact List.mem_append.mpr (Or.inl (List.mem_append.mpr (Or.inr
        (List.mem_append.mpr (Or.inl hm2)))))

/-- Concrete instance of C5 on a 40×25 grid. -/
theorem C5_direct_addressing_witness :
    (term_printString 40 25 8 [27, 89, 34, 37] stEx).cursorX = 5 ∧
    (term_printString 40 25 8 [27, 89, 34, 37] stEx).cursorY = 2 ∧
    (term_printString 40 25 8 [27, 89, 131, 37] stEx).cursorX = stEx.cursorX ∧
    (term_printString 40 25 8 [27, 89, 131, 37] stEx).screen = stEx.screen :=
  ⟨(C5_direct_addressing 40 25 8 stEx (by decide) (by decide) (by decide)
      (by decide)).1,
   (C5_direct_addressing 40 25 8 stEx (by decide) (by decide) (by decide)
      (by decide)).2.1,
   (C5_direct_addressing 40 25 8 stEx (by decide) (by decide) (by decide)
      (by decide)).2.2.2.1,
   (C5_direct_addressing 40 25 8 stEx (by decide) (by decide) (by decide)
      (by decide)).2.2.2.2.2.1⟩

/-- Concrete instance of C9 with the unrecognized command byte 90 ('Z'). -/
theorem C9_unrecognized_escape_witness :
    (term_printString 40 25 8 [27, 90] stEx).screen = stEx.screen ∧
    (term_printString 40 25 8 [27, 90] stEx).cursorX = stEx.cursorX ∧
    (term_printString 40 25 8 [27, 90] stEx).events =
      stEx.events ++ [DispEvent.drefresh] :=
  ⟨(C9_unrecognized_escape 40 25 8 90 stEx (by decide) (by decide)).1,
   (C9_unrecognized_escape 40 25 8 90 stEx (by decide) (by decide)).2.1,
   (C9_unrecognized_escape 40 25 8 90 stEx (by decide) (by decide)).2.2.2.2.2.1⟩

theorem setSlot_fields (ch : ProtocolChannel) (i : Nat)
    (r : TransmissionProtocol) :
    (setSlot ch i r).ready = ch.ready ∧
      (setSlot ch i r).overwriteCount = ch.overwriteCount := by
  unfold setSlot
  split
  · exact ⟨rfl, rfl⟩
  · exact ⟨rfl, rfl⟩

theorem getSlot_setSlot_self (ch : ProtocolChannel) (i : Nat)
    (r : TransmissionProtocol) : getSlot (setSlot ch i r) i = r := by
  by_cases h : i = 0
  · simp [getSlot, setSlot, h]
  · simp [getSlot, setSlot, h]

theorem getSlot_bump (ch : ProtocolChannel) (i : Nat) :
    getSlot (bumpOverwrite ch) i = getSlot ch i := by
  unfold bumpOverwrite
  split
  · rfl
  · rfl

theorem publish_ready (MAXP : Nat) (p : TransmissionProtocol)
    (ch : ProtocolChannel) :
    (handle_protocol_command MAXP p ch).ready = true := rfl

theorem bump_count (ch : ProtocolChannel) :
    (bumpOverwrite ch).overwriteCount =
      ch.overwriteCount + (if ch.ready = true then 1 else 0) := by
  unfold bumpOverwrite
  split
  · rfl
  · omega

theorem publish_count (MAXP : Nat) (p : TransmissionProtocol)
    (ch : ProtocolChannel) :
    (handle_protocol_command MAXP p ch).overwriteCount =
      ch.overwriteCount + (if ch.ready = true then 1 else 0) := by
  show (bumpOverwrite (setSlot ch ch.writeIndex
    (publishRecord MAXP p (getSlot ch ch.writeIndex)))).overwriteCount = _
  rw [bump_count,
    (setSlot_fields ch ch.writeIndex
      (publishRecord MAXP p (getSlot ch ch.writeIndex))).1,
    (setSlot_fields ch ch.writeIndex
      (publishRecord MAXP p (getSlot ch ch.writeIndex))).2]

theorem publish_read (MAXP : Nat) (p : TransmissionProtocol)
    (ch : ProtocolChannel) :
    getSlot (handle_protocol_command MAXP p ch)
        (handle_protocol_command MAXP p ch).readIndex =
      publishRecord MAXP p (getSlot ch ch.writeIndex) := by
  have h1 : getSlot (handle_protocol_command MAXP p ch)
      (handle_protocol_command MAXP p ch).readIndex =
      getSlot (bumpOverwrite (setSlot ch ch.writeIndex
        (publishRecord MAXP p (getSlot ch ch.writeIndex)))) ch.writeIndex := rfl
  rw [h1, getSlot_bump, getSlot_setSlot_self]

theorem publish_take_spec (MAXP : Nat) (p : TransmissionProtocol)
    (ch : ProtocolChannel) (hp : p.payload.length = MAXP) :
    ∃ r n, (term_loop_take (handle_protocol_command MAXP p ch)).1 = some (r, n) ∧
      n = (handle_protocol_command MAXP p ch).overwriteCount ∧
      r.command_id = p.command_id ∧ r.payload_size = p.payload_size ∧
      r.bytes_read = p.bytes_read ∧ r.final_checksum = p.final_checksum ∧
      r.payload.take (min p.payload_size MAXP) =
        p.payload.take (min p.payload_size MAXP) := by
  refine ⟨publishRecord MAXP p (getSlot ch ch.writeIndex),
    (handle_protocol_command MAXP p ch).overwriteCount, ?_, rfl, rfl, rfl, rfl,
    rfl, ?_⟩
  · unfold term_loop_take
    rw [if_pos (publish_ready MAXP p ch)]
    show some (getSlot (handle_protocol_command MAXP p ch)
      (handle_protocol_command MAXP p ch).readIndex, _) = _
    rw [publish_read]
  · show ((p.payload.take (min p.payload_size MAXP)) ++
        ((getSlot ch ch.writeIndex).payload.drop (min p.payload_size MAXP))).take
          (min p.payload_size MAXP) = p.payload.take (min p.payload_size MAXP)
    exact List.take_left' (by rw [List.length_take, hp]; omega)

theorem publishList_ready_count (MAXP : Nat) :
    ∀ (xs : List TransmissionProtocol) (ch : ProtocolChannel), ch.ready = true →
      (xs.foldl (fun c p => handle_protocol_command MAXP p c) ch).overwriteCount
          = ch.overwriteCount + xs.length ∧
        (xs.foldl (fun c p => handle_protocol_command MAXP p c) ch).ready = true := by
  intro xs
  induction xs with
  | nil => intro ch h; exact ⟨by simp, h⟩
  | cons p t ih =>
    intro ch h
    rw [List.foldl_cons]
    obtain ⟨h1, h2⟩ := ih (handle_protocol_command MAXP p ch)
      (publish_ready MAXP p ch)
    refine ⟨?_, h2⟩
    rw [h1, publish_count, h, if_pos rfl, List.length_cons]
    omega

theorem foldl_getLast {α β : Type} (f : β → α → β) :
    ∀ (xs : List α) (a : α), xs.getLast? = some a →
      ∀ (b : β), ∃ ys, xs = ys ++ [a] ∧ xs.foldl f b = f (ys.foldl f b) a := by
  intro xs
  induction xs with
  | nil => intro a h; cases h
  | cons x t ih =>
    intro a h b
    cases t with
    | nil =>
      have hx : x = a := by simpa using h
      exact ⟨[], by simp [hx], by simp [hx]⟩
    | cons y u =>
      rw [List.getLast?_cons_cons] at h
      obtain ⟨ys, hy1, hy2⟩ := ih a h (f b x)
      refine ⟨x :: ys, ?_, ?_⟩
      · rw [List.cons_append, ← hy1]
      · rw [List.foldl_cons, hy2, List.foldl_cons]

/-- C1 (amended): publishing a record and draining it yields a record
whose `command_id`, `bytes_read` and `final_checksum` are copied
verbatim, whose `payload_size` is ALSO copied verbatim — the code clamps
only the `memcpy` length, not the stored field — and whose first
`min payload_size MAXP` payload bytes equal the published ones; payload
bytes beyond the capacity are not copied. -/
theorem C1_roundtrip (MAXP : Nat) (p : TransmissionProtocol)
    (ch : ProtocolChannel) (hp : p.payload.length = MAXP) :
    ∃ r n, (term_loop_take (handle_protocol_command MAXP p ch)).1 = some (r, n) ∧
      r.command_id = p.command_id ∧ r.payload_size = p.payload_size ∧
      r.bytes_read = p.bytes_read ∧ r.final_checksum = p.final_checksum ∧
      r.payload.take (min p.payload_size MAXP) =
        p.payload.take (min p.payload_size MAXP) := by
  obtain ⟨r, n, h1, h2, h3, h4, h5, h6, h7⟩ := publish_take_spec MAXP p ch hp
  exact ⟨r, n, h1, h3, h4, h5, h6, h7⟩

/-- Concrete instance of the amended C1 round trip at capacity 3 with an
oversized declared payload size of 5. -/
theorem C1_roundtrip_witness :
    recBig.payload.length = 3 ∧
    (∃ r n, (term_loop_take (handle_protocol_command 3 recBig chanEx)).1
        = some (r, n) ∧
      r.command_id = recBig.command_id ∧ r.payload_size = recBig.payload_size ∧
      r.bytes_read = recBig.bytes_read ∧
      r.final_checksum = recBig.final_checksum ∧
      r.payload.take (min recBig.payload_size 3) =
        recBig.payload.take (min recBig.payload_size 3)) :=
  ⟨rfl, C1_roundtrip 3 recBig chanEx rfl⟩

/-- C1 counterexample: with payload capacity 3 and a record declaring
payload size 5, the drained record's `payload_size` is 5 — it is not
clamped to the maximum as the claim states. -/
theorem C1_counterexample :
    recBig.payload_size = 5 ∧ 3 < recBig.payload_size ∧
    ((term_loop_take (handle_protocol_command 3 recBig chanEx)).1.map
      (fun rn => rn.1.payload_size)) = some 5 ∧ (5 : Nat) ≠ 3 :=
  ⟨rfl, by decide, by decide, by decide⟩

/-- C2: starting from a drained channel, ten consecutive publishes leave
the overwrite counter nine higher — the counter increments on a publish
exactly when the ready flag was still set — and exactly one record is
available to the next drain, namely the most recently published one;
after that drain the channel is empty. -/
theorem C2_ten_publishes (MAXP : Nat) (ch : ProtocolChannel)
    (xs : List TransmissionProtocol) (last : TransmissionProtocol)
    (q : TransmissionProtocol) (d : ProtocolChannel)
    (hready : ch.ready = false) (hlen : xs.length = 10)
    (hlast : xs.getLast? = some last) (hplen : last.payload.length = MAXP) :
    (xs.foldl (fun c p => handle_protocol_command MAXP p c) ch).overwriteCount
        = ch.overwriteCount + 9 ∧
    (∃ r n, (term_loop_take
        (xs.foldl (fun c p => handle_protocol_command MAXP p c) ch)).1
        = some (r, n) ∧ n = ch.overwriteCount + 9 ∧
      r.command_id = last.command_id ∧ r.payload_size = last.payload_size ∧
      r.bytes_read = last.bytes_read ∧ r.final_checksum = last.final_checksum ∧
      r.payload.take (min last.payload_size MAXP) =
        last.payload.take (min last.payload_size MAXP)) ∧
    (term_loop_take (term_loop_take
        (xs.foldl (fun c p => handle_protocol_command MAXP p c) ch)).2).1
      = none ∧
    (handle_protocol_command MAXP q d).overwriteCount =
      d.overwriteCount + (if d.ready = true then 1 else 0) := by
  have hcount :
      (xs.foldl (fun c p => handle_protocol_command MAXP p c) ch).overwriteCount
          = ch.overwriteCount + 9 ∧
        (xs.foldl (fun c p => handle_protocol_command MAXP p c) ch).ready
          = true := by
    cases xs with
    | nil => simp at hlen
    | cons x t =>
      rw [List.foldl_cons]
      obtain ⟨h1, h2⟩ := publishList_ready_count MAXP t
        (handle_protocol_command MAXP x ch) (publish_ready MAXP x ch)
      have hlent : t.length = 9 := by simpa using hlen
      refine ⟨?_, h2⟩
      rw [h1, publish_count, hready, if_neg (by simp), hlent]
  obtain ⟨ys, hys, hfold⟩ :=
    foldl_getLast (fun c p => handle_protocol_command MAXP p c) xs last hlast ch
  obtain ⟨r, n, h1, h2, h3, h4, h5, h6, h7⟩ := publish_take_spec MAXP last
    (ys.foldl (fun c p => handle_protocol_command MAXP p c) ch) hplen
  refine ⟨hcount.1, ⟨r, n, ?_, ?_, h3, h4, h5, h6, h7⟩, ?_, publish_count MAXP q d⟩
  · rw [hfold]
    exact h1
  · rw [h2, ← hfold, hcount.1]
  · have e1 : (term_loop_take
        (xs.foldl (fun c p => handle_protocol_command MAXP p c) ch)).2 =
        { xs.foldl (fun c p => handle_protocol_command MAXP p c) ch with
          ready := false } := by
      unfold term_loop_take
      rw [if_pos hcount.2]
    rw [e1]
    unfold term_loop_take
    rw [if_neg (by simp)]

/-- Concrete instance of C2: ten distinct records published into a fresh
channel leave an overwrite count of 9 and exactly one drainable record. -/
theorem C2_ten_publishes_witness :
    (recsTen.foldl (fun c p => handle_protocol_command 3 p c) chanEx).overwriteCount
        = chanEx.overwriteCount + 9 ∧
    (term_loop_take (term_loop_take
        (recsTen.foldl (fun c p => handle_protocol_command 3 p c) chanEx)).2).1
      = none :=
  ⟨(C2_ten_publishes 3 chanEx recsTen ⟨9, 2, 0, 0, [9, 9, 0]⟩ recBig chanEx
      rfl (by decide) (by decide) rfl).1,
   (C2_ten_publishes 3 chanEx recsTen ⟨9, 2, 0, 0, [9, 9, 0]⟩ recBig chanEx
      rfl (by decide) (by decide) rfl).2.2.1⟩

/-- Concrete instance of C8 at the origin with line "A". -/
theorem C8_backspace_origin_witness :
    termInputChar 4 3 8 64 [] 8 stOrigin =
      { stOrigin with
        inputBuffer := stOrigin.inputBuffer.dropLast,
        events := stOrigin.events ++
          [DispEvent.dchar stOrigin.prevCursorX stOrigin.prevCursorY 32] } ∧
    (termInputChar 4 3 8 64 [] 8 stOrigin).inputBuffer.length + 1 =
      stOrigin.inputBuffer.length :=
  C8_backspace_origin_nonempty 4 3 8 64 [] stOrigin (by decide) rfl rfl

end Term
